import Mathlib

/-!
Verification of the dvcvapourize pipeline orchestrator (src/vs_pipeline.py and
src/rewrap.py).  Pure decision logic is embedded as executable Lean functions;
filesystem and subprocess observations (file existence, mtimes, sizes, probe
output, encoder exit status) are passed in as explicit arguments.
-/

namespace DVC

/-! ## String and path helpers (os.path.basename / os.path.splitext model)

Paths are strings with `/` as separator.  `basenameL` keeps the part after the
last separator; `splitextL` splits off the extension at the last dot of the
basename, provided some character before that dot is not itself a dot —
mirroring CPython's `posixpath.splitext`. -/

def strOfList (cs : List Char) : String := ⟨cs⟩

def basenameL (cs : List Char) : List Char :=
  (cs.reverse.takeWhile (fun c => !(c == '/'))).reverse

/-- Split a (dot-free-suffix) list at its last `'.'`:
returns `some (pre, suf)` with `cs = pre ++ '.' :: suf` and no `'.'` in `suf`. -/
def splitLastDot : List Char → Option (List Char × List Char)
  | [] => none
  | c :: rest =>
    match splitLastDot rest with
    | some (p, s) => some (c :: p, s)
    | none => if c == '.' then some ([], rest) else none

def splitextL (cs : List Char) : List Char × List Char :=
  match splitLastDot cs with
  | none => (cs, [])
  | some (pre, suf) =>
    if pre.any (fun c => !(c == '.')) then (pre, '.' :: suf) else (cs, [])

/-- Stem of a path: `os.path.splitext(os.path.basename(p))[0]`. -/
def stemL (cs : List Char) : List Char := (splitextL (basenameL cs)).1

/-- Extension of a path: `os.path.splitext(p)[1]` (extension of the basename). -/
def extOf (p : String) : String := strOfList (splitextL (basenameL p.data)).2

/-- Model of `os.path.join dir name` for a `dir` without trailing separator. -/
def joinPath (dir name : String) : String := ⟨dir.data ++ '/' :: name.data⟩

def strLower (s : String) : String := ⟨s.data.map Char.toLower⟩

/-- Python `sub in s` substring test: `isSubAt` is the "starts with" check. -/
def isSubAt : List Char → List Char → Bool
  | [], _ => true
  | _ :: _, [] => false
  | a :: as, b :: bs => a == b && isSubAt as bs

def containsSub (sub : List Char) : List Char → Bool
  | [] => isSubAt sub []
  | c :: rest => isSubAt sub (c :: rest) || containsSub sub rest

def strContains (sub s : String) : Bool := containsSub sub.data s.data

/-! ## Skip rule (vs_pipeline.should_skip_file, lines 146-161)

The filesystem facts the Python code reads — output existence,
`os.path.getmtime` of both files, `os.path.getsize` of the output — are
explicit arguments. -/

def should_skip_file (skipExisting : Bool) (outputExists : Bool)
    (inputMtime outputMtime : Int) (outputSize : Nat) : Bool :=
  if !skipExisting then false
  else if outputExists then
    if inputMtime < outputMtime then
      if outputSize > 1000000 then true else false
    else false
  else false

/-- vs_pipeline.get_output_filename: `join(output_dir, stem(input) ++ ".mov")`. -/
def get_output_filename (input_file output_dir : String) : String :=
  joinPath output_dir (strOfList (stemL input_file.data ++ ".mov".data))

/-! ## Rewrap planner (src/rewrap.py)

`VideoInfo` is the dictionary built by `get_video_info` from ffprobe output;
missing keys default to the empty string resp. 0, matching `dict.get`. -/

structure VideoInfo where
  format_name : String
  codec_name : String
  field_order : String
  height : Nat

def needs_rewrap_formats : List String :=
  ["avi", "matroska", "mp4", "mpeg", "mpegts", "mxf"]

def needs_rewrap_extensions : List String :=
  [".avi", ".mkv", ".mp4", ".m4v", ".mpg", ".mpeg",
   ".ts", ".mts", ".m2ts", ".mxf", ".dv", ".hdv"]

/-- rewrap.needs_rewrapping (lines 35-87), keeping the source's branch
structure.  `none` for `video_info` models `get_video_info` returning None. -/
def needs_rewrapping (source_file : String) (video_info : Option VideoInfo) : Bool :=
  match video_info with
  | none => true
  | some vi =>
    let format_name := strLower vi.format_name
    let codec_name := strLower vi.codec_name
    let file_ext := strLower (extOf source_file)
    let format_needs_rewrap := needs_rewrap_formats.any (fun f => strContains f format_name)
    let extension_needs_rewrap := needs_rewrap_extensions.contains file_ext
    if strContains "mov" format_name || strContains "quicktime" format_name then
      if strContains "prores" codec_name then
        true  -- "For now, always rewrap to ensure DCI-P3 color space"
      else
        true
    else if format_needs_rewrap || extension_needs_rewrap then
      true
    else
      true  -- "Default to rewrapping for pipeline consistency"

/-- rewrap.detect_interlacing (lines 89-117):
returns `(is_interlaced, top_field_first)`. -/
def detect_interlacing (field_order_raw : String) (height : Nat) : Bool × Bool :=
  let field_order := strLower field_order_raw
  let interlaced_indicators : List String := ["tt", "bb", "tb", "bt"]
  let is_interlaced0 := interlaced_indicators.any (fun ind => strContains ind field_order)
  let is_interlaced :=
    if !is_interlaced0 then
      if height = 480 ∨ height = 576 ∨ height = 1080 then true else is_interlaced0
    else is_interlaced0
  let top_field_first :=
    if strContains "bb" field_order || strContains "bt" field_order then false
    else if height = 480 then false
    else true
  (is_interlaced, top_field_first)

/-- The intermediate path written by rewrap_to_prores:
`join(output_directory, splitext(basename(source))[0] ++ "_prores.mov")`. -/
def rewrapOutputFile (source_file output_directory : String) : String :=
  joinPath output_directory (strOfList (stemL source_file.data ++ "_prores.mov".data))

/-- The ffmpeg argument list built by rewrap_to_prores (lines 148-175). -/
def rewrapCommand (source_file output_file : String)
    (is_interlaced top_field_first : Bool) : List String :=
  ["ffmpeg", "-i", source_file,
   "-c:v", "prores_ks", "-profile:v", "3", "-pix_fmt", "yuv422p10le"]
  ++ (if is_interlaced then
        ["-flags", "+ildct+ilme", "-top", if top_field_first then "1" else "0"]
      else [])
  ++ ["-color_primaries", "12", "-color_trc", "11", "-colorspace", "12",
      "-color_range", "tv", "-c:a", "pcm_s24le", "-y", output_file]

/-- Observations of the external encoder run inside rewrap_to_prores:
whether `subprocess.run(..., check=True)` raised, and the state of the
output artifact afterwards. -/
structure EncodeOutcome where
  exitOk : Bool
  outputExists : Bool
  outputSize : Nat

/-- rewrap.rewrap_to_prores (lines 119-222) as a function of the filesystem
and subprocess observations; returns the path handed back to the caller, or
`none` for the Python `None` failure result. -/
def rewrap_to_prores (sourceExists : Bool) (source_file output_directory : String)
    (video_info : Option VideoInfo) (enc : EncodeOutcome) : Option String :=
  if !sourceExists then none
  else if !needs_rewrapping source_file video_info then some source_file
  else
    let output_file := rewrapOutputFile source_file output_directory
    if !enc.exitOk then none
    else if enc.outputExists then
      if enc.outputSize > 1000000 then some output_file else none
    else none

/-! ## Frame-count probing (vs_pipeline.get_frame_count, lines 249-298)

The three ffprobe invocations are modelled by their observed results:
`nbFramesRc`/`nbFramesStdout` for the nb_frames query, `duration` for the
parsed format duration (`none` when `float(...)` would raise), and `frStr`
for the r_frame_rate string (`none` when unavailable).  Python `int()`
truncates toward zero. -/

def pyTrunc (q : ℚ) : Int := if 0 ≤ q then ⌊q⌋ else ⌈q⌉

inductive FrameRateStr where
  | numDen : Int → Int → FrameRateStr
  | deci : ℚ → FrameRateStr

/-- Parsing of the `r_frame_rate` string: `num/den` (ZeroDivisionError when
`den = 0`, caught by the enclosing `except`) or a decimal literal. -/
def parseFrameRate : FrameRateStr → Option ℚ
  | .numDen num den => if den = 0 then none else some ((num : ℚ) / (den : ℚ))
  | .deci q => some q

/-- The `except` fallback: `int((size/(1024*1024) * 8 * 1024 * 1024) / (20000000 / 25))`. -/
def sizeEstimate (fileSizeBytes : Nat) : Int :=
  pyTrunc ((((fileSizeBytes : ℚ) / (1024 * 1024)) * 8 * 1024 * 1024) / (20000000 / 25))

/-- Python `str.isdigit`: non-empty and all digit characters. -/
def pyIsDigit (s : String) : Bool := !s.data.isEmpty && s.data.all Char.isDigit

/-- Python `int(s)` for an all-digit string. -/
def digitsToNat (cs : List Char) : Nat :=
  cs.foldl (fun n c => n * 10 + (c.toNat - '0'.toNat)) 0

def get_frame_count (nbFramesRc : Int) (nbFramesStdout : String)
    (duration : Option ℚ) (frStr : Option FrameRateStr) (fileSizeBytes : Nat) : Int :=
  if nbFramesRc = 0 ∧ pyIsDigit nbFramesStdout then
    ((digitsToNat nbFramesStdout.data : Nat) : Int)
  else
    match duration, frStr with
    | some d, some fs =>
      match parseFrameRate fs with
      | some fr => pyTrunc (d * fr)
      | none => sizeEstimate fileSizeBytes
    | _, _ => sizeEstimate fileSizeBytes

/-! ## Progress monitor (vs_pipeline.monitor_progress, lines 564-609)

A diagnostic line is represented by what each of the three frame regexes
(`frame=\s*(\d+)`, `Output (\d+) frames`, `(\d+) frames in`) captures on it;
the loop keeps the first matching pattern's integer. -/

structure MonitorLine where
  capFrameEq : Option Nat
  capOutputFrames : Option Nat
  capFramesIn : Option Nat

def firstCapture (l : MonitorLine) : Option Nat :=
  match l.capFrameEq with
  | some n => some n
  | none =>
    match l.capOutputFrames with
    | some n => some n
    | none => l.capFramesIn

/-- Per-line update of `context.current_frame`: a captured value is accepted
only when strictly greater than the recorded frame. -/
def monitorStep (current_frame : Nat) (l : MonitorLine) : Nat :=
  match firstCapture l with
  | none => current_frame
  | some f => if current_frame < f then f else current_frame

def monitorRun (current_frame : Nat) (lines : List MonitorLine) : Nat :=
  lines.foldl monitorStep current_frame

/-- The `completed` value republished to the progress bar (lines 594-598). -/
def completedValue (testMode : Bool) (testFrameCount frame : Nat) : Nat :=
  if testMode then min frame testFrameCount else frame

/-! ## Watchdog (vs_pipeline.ProcessWatchdog, lines 749-821)

`check_process_health` runs at discrete instants; each check observes the
current time, whether `process.poll()` reports exit, and how many items the
output queue holds (each drained item calls `reset_timer`). -/

structure WatchdogState where
  lastOutputTime : Int
  outputDetected : Bool

structure CheckInput where
  now : Int
  exited : Bool
  queueCount : Nat

/-- Draining `_output_queue`: any queued output resets the timer and sets the
output flag (ProcessWatchdog.reset_timer). -/
def drainQueue (s : WatchdogState) (queueCount : Nat) (now : Int) : WatchdogState :=
  if 0 < queueCount then { lastOutputTime := now, outputDetected := true } else s

/-- ProcessWatchdog.check_process_health: unhealthy when the process has
exited, or when silence since the last output exceeds the timeout and output
was previously observed. -/
def check_process_health (s : WatchdogState) (c : CheckInput) (timeout : Int) :
    Bool × WatchdogState :=
  if c.exited then (false, s)
  else
    let s2 := drainQueue s c.queueCount c.now
    if decide (timeout < c.now - s2.lastOutputTime) && s2.outputDetected then (false, s2)
    else (true, s2)

/-- ProcessWatchdog.monitor: loop until a check reports unhealthy, then run
cleanup and stop.  Returns the firing check's time, whether cleanup actually
terminates the process (it only does when `poll()` is still None, i.e. the
process has not exited), and the watchdog state at that point. -/
def watchdogRun (timeout : Int) (s : WatchdogState) :
    List CheckInput → Option (Int × Bool × WatchdogState)
  | [] => none
  | c :: rest =>
    let hs := check_process_health s c timeout
    if hs.1 then watchdogRun timeout hs.2 rest
    else some (c.now, !c.exited, hs.2)

/-- The periodic schedule of `monitor`: checks every `check_interval`,
process alive, no queued output. -/
def periodicChecks (t0 check_interval : Int) : Nat → List CheckInput
  | 0 => []
  | n + 1 => ⟨t0, false, 0⟩ :: periodicChecks (t0 + check_interval) check_interval n

/-! ## Output verification (vs_pipeline.verify_color_space, lines 676-719) -/

structure ColorInfo where
  color_primaries : String
  color_trc : String
  colorspace : String

def primariesOk (ci : ColorInfo) : Bool :=
  ["smpte432", "12"].any (fun e => strContains e (strLower ci.color_primaries))

def trcOk (ci : ColorInfo) : Bool :=
  ["smpte428", "11"].any (fun e => strContains e (strLower ci.color_trc))

def colorspaceOk (ci : ColorInfo) : Bool :=
  ["smpte432", "12"].any (fun e => strContains e (strLower ci.colorspace))

/-- vs_pipeline.verify_color_space as a function of the output-file existence,
the ffprobe return code and the parsed color tags. -/
def verify_color_space (fileExists : Bool) (probeRc : Int) (ci : ColorInfo) : Bool :=
  if !fileExists then false
  else if probeRc = 0 then
    if primariesOk ci && trcOk ci && colorspaceOk ci then true else false
  else false

/-! ## Per-file pipeline and batch loop (vs_pipeline.process_single_file and
main, lines 195-247 and 1048-1153) -/

/-- vs_pipeline.process_single_file: True when the job is skipped or every
stage succeeds.  `verifyColor` is the result of the advisory
`verify_color_space` call — it is only logged, never gates the return. -/
def process_single_file (skipDecision : Bool) (rewrapped : Option String)
    (buildAndExecuteOk verifyQuality verifyColor : Bool) : Bool :=
  if skipDecision then true
  else
    match rewrapped with
    | none => false
    | some _ =>
      if !buildAndExecuteOk then false
      else if verifyQuality then true
      else false

/-- One job's stage observations in a batch run. -/
structure JobRun where
  skipDecision : Bool
  rewrapped : Option String
  buildAndExecuteOk : Bool
  verifyQuality : Bool
  verifyColor : Bool

def jobResult (j : JobRun) : Bool :=
  process_single_file j.skipDecision j.rewrapped j.buildAndExecuteOk
    j.verifyQuality j.verifyColor

/-- The successful/failed counters accumulated by the loop in main. -/
def runJobs (jobs : List JobRun) : Nat × Nat :=
  jobs.foldl
    (fun acc j => if jobResult j then (acc.1 + 1, acc.2) else (acc.1, acc.2 + 1))
    (0, 0)

/-- The final batch summary: `(TOTAL FILES, SUCCESSFUL, FAILED)` as printed at
lines 1148-1153.  No separate skipped counter exists in the code. -/
def batchSummary (jobs : List JobRun) : Nat × Nat × Nat :=
  (jobs.length, (runJobs jobs).1, (runJobs jobs).2)

/-! Scenario A: three supported files, skip-existing enabled; files 1 and 3
have no pre-existing output (skip check false), file 2's output already
exists, is newer than its input, and is large enough. -/

def scenarioJob1 : JobRun :=
  ⟨should_skip_file true false 0 0 0, some "out/file1_prores.mov", true, true, true⟩

def scenarioJob2 (inputMtime outputMtime : Int) (outputSize : Nat) : JobRun :=
  ⟨should_skip_file true true inputMtime outputMtime outputSize,
   some "out/file2_prores.mov", true, true, true⟩

def scenarioJob3 : JobRun :=
  ⟨should_skip_file true false 0 0 0, some "out/file3_prores.mov", true, true, true⟩

def scenarioA (inputMtime outputMtime : Int) (outputSize : Nat) : List JobRun :=
  [scenarioJob1, scenarioJob2 inputMtime outputMtime outputSize, scenarioJob3]

end DVC

namespace DVC

theorem should_skip_file_iff (se oe : Bool) (im om : Int) (sz : Nat) :
    should_skip_file se oe im om sz = true ↔
      (se = true ∧ oe = true ∧ im < om ∧ 1000000 < sz) := by
  unfold should_skip_file
  cases se <;> cases oe <;> simp <;> omega

/-- C1: `should_skip_file` returns True iff the skip-existing flag is enabled,
the output exists, the output mtime is strictly newer than the input's, and the
output size clears the 1MB floor (strictly more than 1000000 bytes); with
skip-existing disabled it returns False for every combination of the other
three conditions. -/
theorem should_skip_file_spec (se oe : Bool) (im om : Int) (sz : Nat) :
    (should_skip_file se oe im om sz = true ↔
      (se = true ∧ oe = true ∧ im < om ∧ 1000000 < sz)) ∧
    should_skip_file false oe im om sz = false := by
  refine ⟨should_skip_file_iff se oe im om sz, ?_⟩
  unfold should_skip_file
  simp

/-! ### Path lemmas -/

theorem splitLastDot_eq :
    ∀ (cs p s : List Char), splitLastDot cs = some (p, s) → cs = p ++ '.' :: s := by
  intro cs
  induction cs with
  | nil => intro p s h; simp [splitLastDot] at h
  | cons c rest ih =>
    intro p s h
    unfold splitLastDot at h
    cases hrec : splitLastDot rest with
    | some pr =>
      obtain ⟨p2, s2⟩ := pr
      rw [hrec] at h
      simp at h
      obtain ⟨hp, hs⟩ := h
      subst hp hs
      simpa using congrArg (c :: ·) (ih p2 s2 hrec)
    | none =>
      rw [hrec] at h
      by_cases hc : c = '.'
      · subst hc
        simp at h
        obtain ⟨hp, hs⟩ := h
        subst hp hs
        rfl
      · simp [hc] at h

theorem splitextL_append (cs : List Char) : (splitextL cs).1 ++ (splitextL cs).2 = cs := by
  unfold splitextL
  cases h : splitLastDot cs with
  | none => simp
  | some pr =>
    obtain ⟨p, s⟩ := pr
    by_cases hp : p.any (fun c => !(c == '.')) = true
    · simp only [hp, if_true]
      exact (splitLastDot_eq cs p s h).symm
    · simp [hp]

theorem splitextL_ext_shape (cs : List Char) :
    (splitextL cs).2 = [] ∨ ∃ r, (splitextL cs).2 = '.' :: r := by
  unfold splitextL
  cases h : splitLastDot cs with
  | none => simp
  | some pr =>
    obtain ⟨p, s⟩ := pr
    by_cases hp : p.any (fun c => !(c == '.')) = true
    · right; exact ⟨s, by simp [hp]⟩
    · simp [hp]

theorem basenameL_no_sep (cs : List Char) : ∀ c ∈ basenameL cs, c ≠ '/' := by
  intro c hc
  unfold basenameL at hc
  rw [List.mem_reverse] at hc
  have h := List.mem_takeWhile_imp hc
  simpa using h

theorem basenameL_append_sep (dir b : List Char) (hb : ∀ c ∈ b, c ≠ '/') :
    basenameL (dir ++ '/' :: b) = b := by
  unfold basenameL
  rw [List.reverse_append, List.reverse_cons, List.append_assoc, List.singleton_append]
  rw [List.takeWhile_append_of_pos]
  · rw [List.takeWhile_cons_of_neg (by simp)]
    simp
  · intro a ha
    rw [List.mem_reverse] at ha
    simpa using hb a ha

theorem stemL_no_sep (cs : List Char) : ∀ c ∈ stemL cs, c ≠ '/' := by
  intro c hc
  apply basenameL_no_sep cs
  rw [← splitextL_append (basenameL cs)]
  exact List.mem_append_left _ hc

theorem basenameL_split (cs : List Char) :
    basenameL cs = stemL cs ++ (splitextL (basenameL cs)).2 :=
  (splitextL_append (basenameL cs)).symm

/-- The rewrap intermediate path can never coincide with the source path:
its basename is the source stem with `_prores.mov` appended, and a real
extension starts with a dot while `_prores.mov` starts with an underscore. -/
theorem rewrapOutputFile_ne_source (src dir : String) : rewrapOutputFile src dir ≠ src := by
  intro h
  have hd : dir.data ++ '/' :: (stemL src.data ++ "_prores.mov".data) = src.data :=
    congrArg String.data h
  have hnosep : ∀ c ∈ stemL src.data ++ "_prores.mov".data, c ≠ '/' := by
    intro c hc
    rcases List.mem_append.mp hc with hc | hc
    · exact stemL_no_sep src.data c hc
    · have : ∀ c ∈ "_prores.mov".data, c ≠ '/' := by decide
      exact this c hc
  have hb : basenameL src.data = stemL src.data ++ "_prores.mov".data := by
    conv_lhs => rw [← hd]
    exact basenameL_append_sep dir.data _ hnosep
  have hext : (splitextL (basenameL src.data)).2 = "_prores.mov".data :=
    List.append_cancel_left ((basenameL_split src.data).symm.trans hb)
  rcases splitextL_ext_shape (basenameL src.data) with hsh | ⟨r, hsh⟩
  · rw [hsh] at hext
    exact absurd hext.symm (by decide)
  · rw [hsh] at hext
    have h2 : ('.' :: r).head? = "_prores.mov".data.head? := congrArg List.head? hext
    rw [show ("_prores.mov".data.head? : Option Char) = some '_' from by decide] at h2
    exact absurd (Option.some.inj h2) (by decide)

/-- Every branch of rewrap.needs_rewrapping returns True. -/
theorem needs_rewrapping_always (f : String) (vi? : Option VideoInfo) :
    needs_rewrapping f vi? = true := by
  unfold needs_rewrapping
  cases vi? with
  | none => rfl
  | some vi => simp

/-- When rewrap_to_prores returns a path at all, it is the `_prores.mov`
intermediate path, never the untouched source. -/
theorem rewrap_result_is_intermediate (se : Bool) (src dir : String)
    (vi? : Option VideoInfo) (enc : EncodeOutcome) (p : String)
    (hp : rewrap_to_prores se src dir vi? enc = some p) :
    p = rewrapOutputFile src dir := by
  unfold rewrap_to_prores at hp
  rw [needs_rewrapping_always] at hp
  cases se with
  | false => simp at hp
  | true =>
    simp only [Bool.not_true, Bool.false_eq_true, if_false, Bool.not_false, if_true] at hp
    cases henc : enc.exitOk with
    | false => rw [henc] at hp; simp at hp
    | true =>
      rw [henc] at hp
      cases hoe : enc.outputExists with
      | false => rw [hoe] at hp; simp at hp
      | true =>
        rw [hoe] at hp
        by_cases hsz : enc.outputSize > 1000000
        · simp only [hsz, if_true] at hp
          simp at hp
          exact hp.symm
        · simp [hsz] at hp

/-- C5: for a source already in a QuickTime/MOV container with a ProRes codec,
needs_rewrapping still returns True, and rewrap_to_prores never hands back the
original source path — any path it returns is the freshly written
`_prores.mov` intermediate. -/
theorem rewrap_planner_always_rewraps (src dir : String) (vi : VideoInfo)
    (hmov : strContains "mov" (strLower vi.format_name) = true ∨
            strContains "quicktime" (strLower vi.format_name) = true)
    (hprores : strContains "prores" (strLower vi.codec_name) = true) :
    needs_rewrapping src (some vi) = true ∧
    (∀ (se : Bool) (enc : EncodeOutcome) (p : String),
        rewrap_to_prores se src dir (some vi) enc = some p →
        p = rewrapOutputFile src dir ∧ p ≠ src) := by
  refine ⟨needs_rewrapping_always src (some vi), ?_⟩
  intro se enc p hp
  have h1 := rewrap_result_is_intermediate se src dir (some vi) enc p hp
  exact ⟨h1, h1 ▸ rewrapOutputFile_ne_source src dir⟩

theorem rewrap_planner_always_rewraps_witness :
    needs_rewrapping "in/clip.mov" (some ⟨"mov,mp4,m4a,3gp,3g2,mj2", "prores", "tt", 1080⟩) = true ∧
    rewrap_to_prores true "in/clip.mov" "out"
        (some ⟨"mov,mp4,m4a,3gp,3g2,mj2", "prores", "tt", 1080⟩)
        ⟨true, true, 2000000⟩ ≠ some "in/clip.mov" := by
  have h := rewrap_planner_always_rewraps "in/clip.mov" "out"
    ⟨"mov,mp4,m4a,3gp,3g2,mj2", "prores", "tt", 1080⟩ (Or.inl (by decide)) (by decide)
  refine ⟨h.1, fun hc => ?_⟩
  exact (h.2 true ⟨true, true, 2000000⟩ "in/clip.mov" hc).2 rfl

/-- C8: rewrap_to_prores fails (None) exactly for a missing source, a failed
encoder run, or a missing/too-small output artifact; a missing source fails
for every value of the probe/encoder observations (no subprocess consulted);
in every other case the returned path is the output artifact's path. -/
theorem rewrap_failure_modes (se : Bool) (src dir : String)
    (vi? : Option VideoInfo) (enc : EncodeOutcome) :
    (rewrap_to_prores se src dir vi? enc = none ↔
      (se = false ∨ enc.exitOk = false ∨ enc.outputExists = false ∨
       enc.outputSize ≤ 1000000)) ∧
    (∀ (vi2 : Option VideoInfo) (enc2 : EncodeOutcome),
        rewrap_to_prores false src dir vi2 enc2 = none) ∧
    (∀ p, rewrap_to_prores se src dir vi? enc = some p →
        p = rewrapOutputFile src dir) := by
  refine ⟨?_, ?_, fun p hp => rewrap_result_is_intermediate se src dir vi? enc p hp⟩
  · unfold rewrap_to_prores
    rw [needs_rewrapping_always]
    obtain ⟨eok, oex, osz⟩ := enc
    cases se <;> cases eok <;> cases oex <;> simp <;> omega
  · intro vi2 enc2
    unfold rewrap_to_prores
    simp

theorem rewrap_failure_modes_witness :
    rewrap_to_prores true "in/a.avi" "out" none ⟨true, true, 500⟩ = none ∧
    rewrap_to_prores false "in/a.avi" "out" none ⟨true, true, 2000000⟩ = none ∧
    rewrap_to_prores true "in/a.avi" "out" none ⟨true, true, 2000000⟩ =
      some (rewrapOutputFile "in/a.avi" "out") := by
  refine ⟨?_, ?_, ?_⟩
  · exact (rewrap_failure_modes true "in/a.avi" "out" none ⟨true, true, 500⟩).1.mpr
      (by right; right; right; decide)
  · exact (rewrap_failure_modes true "in/a.avi" "out" none ⟨true, true, 500⟩).2.1 none
      ⟨true, true, 2000000⟩
  · have h := (rewrap_failure_modes true "in/a.avi" "out" none ⟨true, true, 2000000⟩).1
    cases hr : rewrap_to_prores true "in/a.avi" "out" none ⟨true, true, 2000000⟩ with
    | none =>
      rcases h.mp hr with hc | hc | hc | hc <;> simp at hc <;> omega
    | some p =>
      rw [(rewrap_failure_modes true "in/a.avi" "out" none ⟨true, true, 2000000⟩).2.2 p hr]

/-- C10: two distinct inputs with the same stem collide on every derived
artifact path — same final output filename, same rewrap intermediate — and the
rewrap encoder is always invoked with the `-y` overwrite flag, so the later
job silently overwrites the earlier job's artifacts. -/
theorem duplicate_stem_collision (dir f1 f2 : String)
    (hne : f1 ≠ f2)
    (hstem : stemL f1.data = stemL f2.data) :
    get_output_filename f1 dir = get_output_filename f2 dir ∧
    rewrapOutputFile f1 dir = rewrapOutputFile f2 dir ∧
    (∀ il tff : Bool, "-y" ∈ rewrapCommand f2 (rewrapOutputFile f2 dir) il tff) := by
  refine ⟨?_, ?_, ?_⟩
  · unfold get_output_filename
    rw [hstem]
  · unfold rewrapOutputFile
    rw [hstem]
  · intro il tff
    unfold rewrapCommand
    cases il <;> simp

theorem duplicate_stem_collision_witness :
    get_output_filename "a/clip.avi" "out" = get_output_filename "b/clip.mp4" "out" ∧
    rewrapOutputFile "a/clip.avi" "out" = rewrapOutputFile "b/clip.mp4" "out" ∧
    "-y" ∈ rewrapCommand "b/clip.mp4" (rewrapOutputFile "b/clip.mp4" "out") true true := by
  have h := duplicate_stem_collision "out" "a/clip.avi" "b/clip.mp4" (by decide) (by decide)
  exact ⟨h.1, h.2.1, h.2.2 true true⟩

/-! ### Interlace detection -/

/-- C6: the height heuristic changes the interlace verdict only when no
explicit field-order indicator matched (with an indicator present the verdict
is True independently of the height), and top_field_first is True except when
a bottom-field indicator (`bb`/`bt`) appears in the field-order string or the
height is 480. -/
theorem detect_interlacing_spec (field_order : String) (height : Nat) :
    detect_interlacing field_order height =
      ((["tt", "bb", "tb", "bt"] : List String).any
          (fun ind => strContains ind (strLower field_order))
         || decide (height = 480 ∨ height = 576 ∨ height = 1080),
       !(strContains "bb" (strLower field_order)
         || strContains "bt" (strLower field_order)
         || decide (height = 480))) ∧
    ((["tt", "bb", "tb", "bt"] : List String).any
        (fun ind => strContains ind (strLower field_order)) = true →
      ∀ h1 h2 : Nat,
        (detect_interlacing field_order h1).1 = (detect_interlacing field_order h2).1) := by
  constructor
  · unfold detect_interlacing
    cases hind : (["tt", "bb", "tb", "bt"] : List String).any
        (fun ind => strContains ind (strLower field_order)) <;>
      cases hbb : strContains "bb" (strLower field_order) <;>
      cases hbt : strContains "bt" (strLower field_order) <;>
      by_cases h480 : height = 480 <;>
      by_cases h576 : height = 576 <;>
      by_cases h1080 : height = 1080 <;>
      simp_all
  · intro hind h1 h2
    simp [detect_interlacing, hind]

theorem detect_interlacing_spec_witness :
    detect_interlacing "progressive" 576 = (true, true) ∧
    (detect_interlacing "tt" 480).1 = (detect_interlacing "tt" 720).1 := by
  have h := detect_interlacing_spec "progressive" 576
  have h2 := detect_interlacing_spec "tt" 480
  refine ⟨?_, h2.2 (by decide) 480 720⟩
  rw [h.1]
  decide

/-! ### Color-space verification is advisory -/

/-- C9: verify_color_space passes exactly when the file exists, the probe
succeeded, and all three of primaries/transfer/matrix match the accepted
alias set; and the check is advisory — process_single_file's result does not
depend on it, so a job that passed integrity verification is recorded as
successful regardless of the color-space verdict. -/
theorem verify_color_space_advisory (fe : Bool) (probeRc : Int) (ci : ColorInfo)
    (skip : Bool) (rwr : Option String) (bOk vq : Bool) :
    (verify_color_space fe probeRc ci = true ↔
      (fe = true ∧ probeRc = 0 ∧ primariesOk ci = true ∧ trcOk ci = true ∧
       colorspaceOk ci = true)) ∧
    (∀ c1 c2 : Bool,
        process_single_file skip rwr bOk vq c1 = process_single_file skip rwr bOk vq c2) ∧
    (vq = true → bOk = true → ∀ r, rwr = some r →
        ∀ c : Bool, process_single_file skip rwr bOk vq c = true) := by
  refine ⟨?_, fun c1 c2 => rfl, ?_⟩
  · unfold verify_color_space
    cases fe <;> by_cases hrc : probeRc = 0 <;>
      cases hp : primariesOk ci <;> cases ht : trcOk ci <;> cases hc : colorspaceOk ci <;>
      simp_all
  · intro hvq hbOk r hr c
    subst hvq hbOk hr
    unfold process_single_file
    cases skip <;> simp

theorem verify_color_space_advisory_witness :
    verify_color_space true 0 ⟨"smpte432", "smpte428", "smpte432"⟩ = true ∧
    process_single_file false (some "x_prores.mov") true true false = true := by
  have h := verify_color_space_advisory true 0 ⟨"smpte432", "smpte428", "smpte432"⟩
    false (some "x_prores.mov") true true
  exact ⟨h.1.mpr ⟨rfl, rfl, by decide, by decide, by decide⟩,
         h.2.2 rfl rfl "x_prores.mov" rfl false⟩

/-! ### Batch summary: a skipped file is a success, and there is no skipped
counter -/

/-- C2 counterexample: in the scenario (3 files, file 2 skippable), the
printed summary is `total=3, successful=3, failed=0` — the successful count
is 3 and not 2, and the triple carries no skipped field at all. -/
theorem batch_summary_counterexample :
    batchSummary (scenarioA 0 1 2000000) = (3, 3, 0) ∧
    ¬((batchSummary (scenarioA 0 1 2000000)).2.1 = 2) := by
  constructor <;> decide

/-- C2 (amended): in scenario A the batch summary reports total=3,
successful=3, failed=0: the skipped file is counted as a success (not a
failure), and the summary has no separate skipped count. -/
theorem batch_summary_scenarioA (inputMtime outputMtime : Int) (outputSize : Nat)
    (hm : inputMtime < outputMtime) (hs : 1000000 < outputSize) :
    batchSummary (scenarioA inputMtime outputMtime outputSize) = (3, 3, 0) := by
  have hskip : should_skip_file true true inputMtime outputMtime outputSize = true :=
    (should_skip_file_iff true true inputMtime outputMtime outputSize).mpr
      ⟨rfl, rfl, hm, hs⟩
  simp [batchSummary, runJobs, scenarioA, scenarioJob1, scenarioJob2, scenarioJob3,
    jobResult, process_single_file, hskip, should_skip_file]

theorem batch_summary_scenarioA_witness :
    batchSummary (scenarioA 0 1 2000000) = (3, 3, 0) :=
  batch_summary_scenarioA 0 1 2000000 (by decide) (by decide)

/-! ### Frame-count fallback -/

theorem sizeEstimate_eq (size : Nat) : sizeEstimate size = ⌊(size : ℚ) / 100000⌋ := by
  unfold sizeEstimate pyTrunc
  have hq : ((((size : ℚ) / (1024 * 1024)) * 8 * 1024 * 1024) / (20000000 / 25)) =
      (size : ℚ) / 100000 := by
    field_simp
    ring
  rw [hq, if_pos (by positivity)]

theorem sizeEstimate_nonneg (size : Nat) : 0 ≤ sizeEstimate size := by
  rw [sizeEstimate_eq]
  exact Int.floor_nonneg.mpr (by positivity)

theorem sizeEstimate_pos (size : Nat) (h : 100000 ≤ size) : 0 < sizeEstimate size := by
  rw [sizeEstimate_eq]
  have h1 : (1 : ℚ) ≤ (size : ℚ) / 100000 := by
    rw [le_div_iff (by norm_num)]
    push_cast
    exact_mod_cast (by omega : (100000 : Nat) * 1 ≤ size)
  have h2 : (1 : ℤ) ≤ ⌊(size : ℚ) / 100000⌋ := Int.le_floor.mpr (by exact_mod_cast h1)
  omega

/-- C7 counterexample: for a 50000-byte file with no usable metadata the
size-based estimate is 0, which is not a positive integer. -/
theorem get_frame_count_counterexample :
    get_frame_count 1 "" none none 50000 = 0 ∧
    ¬(0 < get_frame_count 1 "" none none 50000) := by
  have h : get_frame_count 1 "" none none 50000 = 0 := by
    unfold get_frame_count
    rw [if_neg (by simp), sizeEstimate_eq]
    norm_num
  exact ⟨h, by omega⟩

/-- C7 (amended): get_frame_count follows the three-tier fallback in order —
the explicit numeric nb_frames stream field when the probe succeeded;
otherwise the truncation of duration x frame_rate (equal to the floor for the
non-negative values ffprobe reports), with the frame rate parsed from a
num/den rational or a decimal; otherwise the size-based estimate, which is a
non-negative integer and positive exactly for files of at least 100000 bytes
(0 for smaller files). -/
theorem get_frame_count_fallback (nbRc : Int) (nbStdout : String)
    (dur : Option ℚ) (frs : Option FrameRateStr) (size : Nat) :
    (nbRc = 0 → pyIsDigit nbStdout = true →
      get_frame_count nbRc nbStdout dur frs size = ((digitsToNat nbStdout.data : Nat) : Int)) ∧
    (¬(nbRc = 0 ∧ pyIsDigit nbStdout = true) →
      ∀ (d : ℚ) (f : FrameRateStr) (fr : ℚ), dur = some d → frs = some f →
        parseFrameRate f = some fr → 0 ≤ d → 0 ≤ fr →
        get_frame_count nbRc nbStdout dur frs size = ⌊d * fr⌋) ∧
    (¬(nbRc = 0 ∧ pyIsDigit nbStdout = true) →
      (dur = none ∨ frs = none ∨ (∃ f, frs = some f ∧ parseFrameRate f = none)) →
      get_frame_count nbRc nbStdout dur frs size = sizeEstimate size) ∧
    (0 ≤ sizeEstimate size ∧ (100000 ≤ size → 0 < sizeEstimate size)) := by
  refine ⟨?_, ?_, ?_, sizeEstimate_nonneg size, sizeEstimate_pos size⟩
  · intro h1 h2
    unfold get_frame_count
    rw [if_pos ⟨h1, h2⟩]
  · intro hneg d f fr hd hf hfr hd0 hfr0
    subst hd hf
    unfold get_frame_count
    rw [if_neg hneg]
    simp only [hfr]
    unfold pyTrunc
    rw [if_pos (mul_nonneg hd0 hfr0)]
  · intro hneg hcase
    unfold get_frame_count
    rw [if_neg hneg]
    rcases hcase with hd | hf | ⟨f, hf, hpf⟩
    · subst hd; rfl
    · subst hf; cases dur <;> rfl
    · subst hf
      cases dur with
      | none => rfl
      | some d => simp only [hpf]

theorem get_frame_count_fallback_witness :
    get_frame_count 0 "123" none none 0 = 123 ∧
    get_frame_count 1 "" (some 10) (some (FrameRateStr.numDen 25 1)) 0 = 250 ∧
    get_frame_count 1 "" none none 200000 = 2 := by
  refine ⟨?_, ?_, ?_⟩
  · rw [(get_frame_count_fallback 0 "123" none none 0).1 rfl (by decide)]
    decide
  · rw [(get_frame_count_fallback 1 "" (some 10) (some (FrameRateStr.numDen 25 1)) 0).2.1
      (by simp) 10 (FrameRateStr.numDen 25 1) 25 rfl rfl (by norm_num [parseFrameRate])
      (by norm_num) (by norm_num)]
    norm_num
  · rw [(get_frame_count_fallback 1 "" none none 200000).2.2.1 (by simp) (Or.inl rfl),
      sizeEstimate_eq]
    norm_num

/-! ### Progress-monitor monotonicity -/

theorem monitorStep_le (cur : Nat) (l : MonitorLine) : cur ≤ monitorStep cur l := by
  unfold monitorStep
  cases firstCapture l with
  | none => exact le_refl cur
  | some f =>
    show cur ≤ if cur < f then f else cur
    split <;> omega

theorem monitorRun_le (lines : List MonitorLine) :
    ∀ cur : Nat, cur ≤ monitorRun cur lines := by
  induction lines with
  | nil => intro cur; exact le_refl cur
  | cons l rest ih =>
    intro cur
    have h1 : monitorRun cur (l :: rest) = monitorRun (monitorStep cur l) rest := rfl
    rw [h1]
    exact le_trans (monitorStep_le cur l) (ih (monitorStep cur l))

theorem completedValue_mono (tm : Bool) (tc : Nat) {a b : Nat} (h : a ≤ b) :
    completedValue tm tc a ≤ completedValue tm tc b := by
  unfold completedValue
  cases tm
  · simpa using h
  · simp only [if_pos rfl]
    exact min_le_min h (le_refl tc)

/-- C3: a captured frame number is accepted only when strictly greater than
the recorded frame index — an out-of-order or repeated capture leaves the
state unchanged — and the completed value reported after any extension of the
line sequence never drops below the value reported before it. -/
theorem monitor_progress_monotonic (tm : Bool) (tc cur f : Nat) (l : MonitorLine)
    (lines extra : List MonitorLine)
    (hcap : firstCapture l = some f) (hle : f ≤ cur) :
    monitorStep cur l = cur ∧
    completedValue tm tc (monitorRun cur lines) ≤
      completedValue tm tc (monitorRun cur (lines ++ extra)) := by
  constructor
  · unfold monitorStep
    rw [hcap]
    show (if cur < f then f else cur) = cur
    rw [if_neg (by omega)]
  · have happ : monitorRun cur (lines ++ extra) =
        monitorRun (monitorRun cur lines) extra := by
      unfold monitorRun
      exact List.foldl_append monitorStep cur lines extra
    rw [happ]
    exact completedValue_mono tm tc (monitorRun_le extra (monitorRun cur lines))

theorem monitor_progress_monotonic_witness :
    monitorStep 100 ⟨some 50, none, none⟩ = 100 ∧
    completedValue false 0 (monitorRun 100 [⟨some 120, none, none⟩]) ≤
      completedValue false 0
        (monitorRun 100 ([⟨some 120, none, none⟩] ++ [⟨some 50, none, none⟩])) :=
  monitor_progress_monotonic false 0 100 50 ⟨some 50, none, none⟩
    [⟨some 120, none, none⟩] [⟨some 50, none, none⟩] rfl (by omega)

/-! ### Watchdog firing policy -/

theorem watchdogRun_fired_cond (timeout : Int) :
    ∀ (checks : List CheckInput) (s : WatchdogState) (t : Int) (s2 : WatchdogState),
      watchdogRun timeout s checks = some (t, true, s2) →
      s2.outputDetected = true ∧ timeout < t - s2.lastOutputTime := by
  intro checks
  induction checks with
  | nil => intro s t s2 h; simp [watchdogRun] at h
  | cons c rest ih =>
    intro s t s2 h
    unfold watchdogRun at h
    by_cases hh : (check_process_health s c timeout).1 = true
    · rw [if_pos hh] at h
      exact ih _ t s2 h
    · rw [if_neg hh] at h
      simp only [Option.some.injEq, Prod.mk.injEq] at h
      obtain ⟨ht, hterm, hs2⟩ := h
      have hex : c.exited = false := by
        cases hx : c.exited
        · rfl
        · rw [hx] at hterm; simp at hterm
      unfold check_process_health at hh hs2
      rw [hex] at hh hs2
      simp only [Bool.false_eq_true, if_false] at hh hs2
      by_cases hcond : (decide (timeout < c.now - (drainQueue s c.queueCount c.now).lastOutputTime)
          && (drainQueue s c.queueCount c.now).outputDetected) = true
      · rw [if_pos hcond] at hs2
        rw [Bool.and_eq_true, decide_eq_true_iff] at hcond
        subst ht
        rw [← hs2]
        exact ⟨hcond.2, hcond.1⟩
      · rw [if_neg hcond] at hh
        exact absurd rfl hh

theorem watchdogRun_no_output (timeout : Int) :
    ∀ (checks : List CheckInput) (t1 : Int),
      (∀ x ∈ checks, x.queueCount = 0 ∧ x.exited = false) →
      watchdogRun timeout ⟨t1, false⟩ checks = none := by
  intro checks
  induction checks with
  | nil => intro t1 _; rfl
  | cons c rest ih =>
    intro t1 hall
    obtain ⟨hq, hex⟩ := hall c (List.mem_cons_self c rest)
    have hstate : check_process_health ⟨t1, false⟩ c timeout = (true, ⟨t1, false⟩) := by
      unfold check_process_health drainQueue
      rw [hex, hq]
      simp
    unfold watchdogRun
    rw [hstate]
    simp only [if_pos rfl]
    exact ih t1 (fun x hx => hall x (List.mem_cons_of_mem c hx))

theorem watchdogRun_periodic (timeout c T : Int) :
    ∀ (n : Nat) (t0 : Int), t0 ≤ T + timeout + c →
      (∃ k : Nat, k < n ∧ T + timeout < t0 + (k : Int) * c) →
      ∃ tf s2, watchdogRun timeout ⟨T, true⟩ (periodicChecks t0 c n) = some (tf, true, s2) ∧
        T + timeout < tf ∧ tf ≤ T + timeout + c := by
  intro n
  induction n with
  | zero =>
    rintro t0 _ ⟨k, hk, _⟩
    omega
  | succ n ih =>
    rintro t0 h0 ⟨k, hk, hlt⟩
    by_cases hfire : T + timeout < t0
    · have ht : timeout < t0 - T := by omega
      have hstate : check_process_health ⟨T, true⟩ ⟨t0, false, 0⟩ timeout =
          (false, ⟨T, true⟩) := by
        simp [check_process_health, drainQueue, ht]
      refine ⟨t0, ⟨T, true⟩, ?_, hfire, by omega⟩
      simp only [periodicChecks, watchdogRun, hstate]
      simp
    · have ht : ¬(timeout < t0 - T) := by omega
      have hstate : check_process_health ⟨T, true⟩ ⟨t0, false, 0⟩ timeout =
          (true, ⟨T, true⟩) := by
        simp [check_process_health, drainQueue, ht]
      have hk0 : k ≠ 0 := by
        intro hzero
        subst hzero
        simp at hlt
        omega
      obtain ⟨k2, rfl⟩ := Nat.exists_eq_succ_of_ne_zero hk0
      have hmul : ((k2 + 1 : Nat) : Int) * c = (k2 : Int) * c + c := by push_cast; ring
      rw [hmul] at hlt
      have hrec := ih (t0 + c) (by omega) ⟨k2, by omega, by linarith⟩
      obtain ⟨tf, s2, hrun, hb1, hb2⟩ := hrec
      refine ⟨tf, s2, ?_, hb1, hb2⟩
      simp only [periodicChecks, watchdogRun, hstate]
      simpa using hrun

/-- C4: the watchdog triggers process termination only when output was
previously observed and the silence since the last output exceeds the timeout
(first conjunct); with no output ever observed and the process alive it never
fires, however much time elapses (second conjunct); and after output at time
T followed by silence, checking every check_interval, it fires at a time in
the window (T + timeout, T + timeout + check_interval] (third conjunct). -/
theorem watchdog_freeze_policy (T timeout c t0 : Int) (n : Nat)
    (h0 : t0 ≤ T + timeout + c)
    (hex : ∃ k : Nat, k < n ∧ T + timeout < t0 + (k : Int) * c) :
    (∀ (s : WatchdogState) (checks : List CheckInput) (t : Int) (s2 : WatchdogState),
        watchdogRun timeout s checks = some (t, true, s2) →
        s2.outputDetected = true ∧ timeout < t - s2.lastOutputTime) ∧
    (∀ (t1 : Int) (checks : List CheckInput),
        (∀ x ∈ checks, x.queueCount = 0 ∧ x.exited = false) →
        watchdogRun timeout ⟨t1, false⟩ checks = none) ∧
    (∃ tf s2, watchdogRun timeout ⟨T, true⟩ (periodicChecks t0 c n) = some (tf, true, s2) ∧
        T + timeout < tf ∧ tf ≤ T + timeout + c) :=
  ⟨fun s checks => watchdogRun_fired_cond timeout checks s,
   fun t1 checks h => watchdogRun_no_output timeout checks t1 h,
   watchdogRun_periodic timeout c T n t0 h0 hex⟩

theorem watchdog_freeze_policy_witness :
    ∃ tf s2, watchdogRun 30 ⟨0, true⟩ (periodicChecks 0 1 40) = some (tf, true, s2) ∧
      (0 : Int) + 30 < tf ∧ tf ≤ 0 + 30 + 1 := by
  have h := watchdog_freeze_policy 0 30 1 0 40 (by norm_num)
    ⟨31, by norm_num, by norm_num⟩
  exact h.2.2

end DVC
